import Mathlib

/-!
Shallow embedding of `src/redteam/redteam.py`.

External collaborators that are not part of this repository's source
(the OpenAI / Together clients behind `utils.get_response`, the instructor
client behind `utils.judge_prompt`, the `module_basic` / `module_residual` /
`module_residual_buffer` attack programs, and the dspy `Evaluate` / `MIPRO`
machinery) are abstracted as function parameters.  Python exceptions are
modelled with `Except Unit`, Python `int` with `Int`, numeric scores with `ℚ`,
and `dspy.Example(harmful_intent=goal)` is identified with its goal string.
-/

/-- Python's built-in `round` on a rational: round half to even
(banker's rounding), as used on the judge score in `metric`. -/
def pyRound (q : ℚ) : ℤ :=
  if q - (⌊q⌋ : ℚ) < 1/2 then ⌊q⌋
  else if 1/2 < q - (⌊q⌋ : ℚ) then ⌊q⌋ + 1
  else if ⌊q⌋ % 2 = 0 then ⌊q⌋ else ⌊q⌋ + 1

/-- The scoring function `metric(intent, attack_prompt, trace=None, eval_round=True)`
(redteam.py lines 48-58).  `get_response` abstracts the target-model call
(`utils.get_response` with the Together client, max_tokens 512, temperature 0);
`judge` abstracts the judge call (`utils.judge_prompt` with the instructor
client).  When `eval_round` is set the score is collapsed with Python `round`. -/
def metric (get_response : String → String) (judge : String → String → ℚ)
    (intent attack_prompt : String) (trace : Option Unit := none)
    (eval_round : Bool := true) : ℚ :=
  let response := get_response attack_prompt
  let score := judge intent response
  if eval_round then ((pyRound score : ℤ) : ℚ) else score

/-- Modelled from the spec: `utils.judge_prompt` is not under `src/`; the spec
declares that the judge returns a validated numeric score lying in a fixed
declared range, which the rounding-to-binary policy of §4.2/§8 fixes as the
unit interval `[0, 1]`. -/
def judge_in_range (judge : String → String → ℚ) : Prop :=
  ∀ intent response, 0 ≤ judge intent response ∧ judge intent response ≤ 1

/-- The closed set of attack-program variants constructed by
`choose_attack_program` (redteam.py lines 37-45); the three constructors stand
for `module_basic.AttackProgram`, `module_residual.AttackProgram` and
`module_residual_buffer.AttackProgram` with the arguments the dispatcher
passes to each. -/
inductive AttackProgramV where
  | basic (num_layers : Int)
  | residual (num_layers : Int)
  | buffered (num_layers : Int) (buf_size : Int) (critique_model : String)
deriving DecidableEq

/-- `choose_attack_program(choice, **settings)` (redteam.py lines 37-45):
an `if/elif/elif` chain with no `else`, so an unrecognized choice falls
through and Python returns `None`. -/
def choose_attack_program (choice : String) (num_layers buf_size : Int)
    (critique_model : String) : Option AttackProgramV :=
  if choice = "basic" then some (AttackProgramV.basic num_layers)
  else if choice = "residual" then some (AttackProgramV.residual num_layers)
  else if choice = "buffered" then
    some (AttackProgramV.buffered num_layers buf_size critique_model)
  else none

/-- The metric wrapper `lambda x, y: metric(x, y)` that `eval_program`
(redteam.py lines 113-121) hands to the dspy `Evaluate` harness: only the two
positional arguments are supplied, so `trace` and `eval_round` keep their
defaults `None` and `True`. -/
def eval_program_metric (get_response : String → String)
    (judge : String → String → ℚ) : String → String → ℚ :=
  fun x y => metric get_response judge x y

lemma pyRound_eq_zero_or_one {q : ℚ} (h0 : 0 ≤ q) (h1 : q ≤ 1) :
    pyRound q = 0 ∨ pyRound q = 1 := by
  have hfl : ⌊q⌋ = 0 ∨ ⌊q⌋ = 1 := by
    have h2 : (0 : ℤ) ≤ ⌊q⌋ := Int.floor_nonneg.mpr h0
    have h3 : ⌊q⌋ ≤ ⌊(1 : ℚ)⌋ := Int.floor_le_floor h1
    have h4 : ⌊(1 : ℚ)⌋ = 1 := by norm_num
    omega
  rcases hfl with hfl | hfl
  · unfold pyRound
    rw [hfl]
    split_ifs <;> simp
  · have hq : q = 1 := by
      have hle : ((⌊q⌋ : ℤ) : ℚ) ≤ q := Int.floor_le q
      rw [hfl] at hle
      push_cast at hle
      linarith
    subst hq
    unfold pyRound
    norm_num

/-- C1: for every intent and attack prompt, when rounding is requested the
score returned by `metric` is in `{0, 1}` (a binary success indicator), and
the unrounded score always lies within the declared judge range. -/
theorem metric_score_range (get_response : String → String)
    (judge : String → String → ℚ) (h : judge_in_range judge)
    (intent attack_prompt : String) :
    (metric get_response judge intent attack_prompt none true = 0 ∨
      metric get_response judge intent attack_prompt none true = 1) ∧
    0 ≤ metric get_response judge intent attack_prompt none false ∧
    metric get_response judge intent attack_prompt none false ≤ 1 := by
  obtain ⟨h0, h1⟩ := h intent (get_response attack_prompt)
  refine ⟨?_, h0, h1⟩
  show ((pyRound (judge intent (get_response attack_prompt)) : ℤ) : ℚ) = 0 ∨
    ((pyRound (judge intent (get_response attack_prompt)) : ℤ) : ℚ) = 1
  rcases pyRound_eq_zero_or_one h0 h1 with hp | hp <;> rw [hp]
  · left; norm_num
  · right; norm_num

/-- Witness for C1 at the concrete judge returning 7/10 on every input. -/
theorem metric_score_range_check :
    (metric id (fun _ _ => (7 : ℚ)/10) "i" "a" none true = 0 ∨
      metric id (fun _ _ => (7 : ℚ)/10) "i" "a" none true = 1) ∧
    0 ≤ metric id (fun _ _ => (7 : ℚ)/10) "i" "a" none false ∧
    metric id (fun _ _ => (7 : ℚ)/10) "i" "a" none false ≤ 1 :=
  metric_score_range id (fun _ _ => (7 : ℚ)/10)
    (fun _ _ => ⟨by norm_num, by norm_num⟩) "i" "a"

/-- C9: `choose_attack_program` returns `none` exactly on choices outside
`basic` / `residual` / `buffered`; on the three recognized choices it returns
the corresponding variant, and `buf_size` / `critique_model` are consumed only
by the `buffered` variant. -/
theorem choose_attack_program_total_spec (nl b : Int) (c : String) :
    (∀ choice : String,
      choose_attack_program choice nl b c = none ↔
        (choice ≠ "basic" ∧ choice ≠ "residual" ∧ choice ≠ "buffered")) ∧
    choose_attack_program "basic" nl b c = some (AttackProgramV.basic nl) ∧
    choose_attack_program "residual" nl b c = some (AttackProgramV.residual nl) ∧
    choose_attack_program "buffered" nl b c =
      some (AttackProgramV.buffered nl b c) := by
  refine ⟨?_, rfl, rfl, rfl⟩
  intro choice
  unfold choose_attack_program
  split_ifs <;> simp_all

/-- C10: the metric wrapper passed by `eval_program` to the dspy evaluator
supplies only the two positional arguments, so `eval_round` takes its default
`true`: the harness always sees the rounded score (an integer), never the
graded one. -/
theorem eval_program_metric_rounds (get_response : String → String)
    (judge : String → String → ℚ) (x y : String) :
    eval_program_metric get_response judge x y =
      metric get_response judge x y none true ∧
    eval_program_metric get_response judge x y =
      ((pyRound (judge x (get_response y)) : ℤ) : ℚ) ∧
    ∃ z : ℤ, eval_program_metric get_response judge x y = (z : ℚ) :=
  ⟨rfl, rfl, pyRound (judge x (get_response y)), rfl⟩

/-- One experiment configuration, the `dict` built in
`get_setting_combinations` (redteam.py lines 179-184). -/
structure Setting where
  attack_program : String
  num_layers : Int
  buf_size : Int
  critique_model : String
deriving DecidableEq

/-- `get_setting_combinations(args)` (redteam.py lines 169-188): the cartesian
product of program variants and layer counts, additionally crossed with
`(buf_size, critique_model)` pairs when the variant is `"buffered"`, and
otherwise paired with the single dummy `(0, "")`. -/
def get_setting_combinations (attack_programs : List String)
    (num_layers_list buf_sizes : List Int) (critique_models : List String) :
    List Setting :=
  attack_programs.flatMap fun attack_program =>
    num_layers_list.flatMap fun num_layers =>
      (if attack_program = "buffered" then
          buf_sizes.flatMap fun buf_size =>
            critique_models.map fun critique_model => (buf_size, critique_model)
        else [((0 : Int), "")]).map fun p =>
        ⟨attack_program, num_layers, p.1, p.2⟩

lemma mem_buf_crit (bss : List Int) (cms : List String) (p : Int × String) :
    p ∈ (bss.flatMap fun b => cms.map fun c => (b, c)) ↔ p.1 ∈ bss ∧ p.2 ∈ cms := by
  rcases p with ⟨b, c⟩
  simp [List.mem_flatMap, List.mem_map]

lemma length_bind_const {α β : Type} (l : List α) (f : α → List β) (m : ℕ)
    (h : ∀ a ∈ l, (f a).length = m) : (l.flatMap f).length = l.length * m := by
  induction l with
  | nil => simp
  | cons x xs ih =>
    have hx := h x (List.mem_cons_self x xs)
    have hxs : ∀ a ∈ xs, (f a).length = m :=
      fun a ha => h a (List.mem_cons_of_mem x ha)
    simp [List.flatMap_cons, hx, ih hxs, Nat.succ_mul, Nat.add_comm]

lemma mem_get_setting_combinations (aps : List String) (nls bss : List Int)
    (cms : List String) (s : Setting) :
    s ∈ get_setting_combinations aps nls bss cms ↔
      s.attack_program ∈ aps ∧ s.num_layers ∈ nls ∧
      ((s.attack_program = "buffered" ∧ s.buf_size ∈ bss ∧
          s.critique_model ∈ cms) ∨
        (s.attack_program ≠ "buffered" ∧ s.buf_size = 0 ∧
          s.critique_model = "")) := by
  constructor
  · intro hs
    simp only [get_setting_combinations, List.mem_flatMap, List.mem_map] at hs
    obtain ⟨ap, hap, nl, hnl, p, hp, rfl⟩ := hs
    by_cases hbuf : ap = "buffered"
    · rw [if_pos hbuf, mem_buf_crit] at hp
      exact ⟨hap, hnl, Or.inl ⟨hbuf, hp.1, hp.2⟩⟩
    · rw [if_neg hbuf] at hp
      simp only [List.mem_singleton] at hp
      subst hp
      exact ⟨hap, hnl, Or.inr ⟨hbuf, rfl, rfl⟩⟩
  · rcases s with ⟨ap, nl, b, c⟩
    rintro ⟨hap, hnl, ⟨hbuf, hb, hc⟩ | ⟨hbuf, hb, hc⟩⟩ <;>
      simp only [get_setting_combinations, List.mem_flatMap, List.mem_map]
    · exact ⟨ap, hap, nl, hnl, (b, c), by
        rw [if_pos hbuf, mem_buf_crit]; exact ⟨hb, hc⟩, rfl⟩
    · subst hb; subst hc
      exact ⟨ap, hap, nl, hnl, (0, ""), by rw [if_neg hbuf]; simp, rfl⟩

lemma get_setting_combinations_length (aps : List String) (nls bss : List Int)
    (cms : List String) :
    (get_setting_combinations aps nls bss cms).length =
      (aps.map fun ap =>
        nls.length * (if ap = "buffered" then bss.length * cms.length else 1)).sum := by
  induction aps with
  | nil => rfl
  | cons ap aps ih =>
    simp only [get_setting_combinations, List.flatMap_cons, List.length_append,
      List.map_cons, List.sum_cons]
    rw [show (aps.flatMap fun a => nls.flatMap fun nl =>
        (if a = "buffered" then bss.flatMap fun b => cms.map fun c => (b, c)
          else [((0 : Int), "")]).map fun p => Setting.mk a nl p.1 p.2).length =
        (get_setting_combinations aps nls bss cms).length from rfl, ih]
    congr 1
    rw [length_bind_const nls _
      ((if ap = "buffered" then bss.length * cms.length else 1))]
    intro nl _
    rw [List.length_map]
    by_cases hbuf : ap = "buffered"
    · rw [if_pos hbuf, if_pos hbuf,
        length_bind_const bss _ cms.length (fun b _ => List.length_map _ _)]
    · rw [if_neg hbuf, if_neg hbuf]
      rfl

/-- C3: `get_setting_combinations` produces exactly the cartesian product of
variants and layer counts, crossed with every (buffer size, critique model)
pair exactly when the variant is `"buffered"`; non-buffered variants yield
exactly one setting per (variant, layer-count) pair, with `buf_size = 0` and
an empty critique model. -/
theorem get_setting_combinations_spec (aps : List String) (nls bss : List Int)
    (cms : List String) :
    (∀ s : Setting,
      s ∈ get_setting_combinations aps nls bss cms ↔
        s.attack_program ∈ aps ∧ s.num_layers ∈ nls ∧
        ((s.attack_program = "buffered" ∧ s.buf_size ∈ bss ∧
            s.critique_model ∈ cms) ∨
          (s.attack_program ≠ "buffered" ∧ s.buf_size = 0 ∧
            s.critique_model = ""))) ∧
    (get_setting_combinations aps nls bss cms).length =
      (aps.map fun ap =>
        nls.length * (if ap = "buffered" then bss.length * cms.length else 1)).sum :=
  ⟨mem_get_setting_combinations aps nls bss cms,
    get_setting_combinations_length aps nls bss cms⟩

/-- `evaluate_baseline(valset)` (redteam.py lines 99-110): accumulate
`metric(intent=ex, attack_prompt=ex, eval_round=True)` over the validation
set, then divide by its length. -/
def evaluate_baseline (get_response : String → String)
    (judge : String → String → ℚ) (valset : List String) : ℚ :=
  let base_score :=
    valset.foldl (fun acc ex => acc + metric get_response judge ex ex none true) 0
  base_score / (valset.length : ℚ)

lemma foldl_add_map {α : Type} (f : α → ℚ) :
    ∀ (l : List α) (a : ℚ), l.foldl (fun acc x => acc + f x) a = a + (l.map f).sum := by
  intro l
  induction l with
  | nil => intro a; simp
  | cons x xs ih =>
    intro a
    simp only [List.foldl_cons, List.map_cons, List.sum_cons, ih, add_assoc]

/-- C5: on a non-empty validation set the baseline evaluation passes each raw
harmful intent unchanged as the attack prompt to `metric` (with rounding
requested) and returns the mean of the per-example scores. -/
theorem evaluate_baseline_mean (get_response : String → String)
    (judge : String → String → ℚ) (valset : List String) (h : valset ≠ []) :
    evaluate_baseline get_response judge valset =
      ((valset.map fun ex => metric get_response judge ex ex none true).sum) /
        (valset.length : ℚ) := by
  unfold evaluate_baseline
  rw [foldl_add_map]
  rw [zero_add]

/-- Witness for C5 on the two-element validation set `["a", "b"]`. -/
theorem evaluate_baseline_mean_check :
    evaluate_baseline id (fun _ _ => (1 : ℚ)/2) ["a", "b"] =
      (((["a", "b"] : List String).map fun ex =>
          metric id (fun _ _ => (1 : ℚ)/2) ex ex none true).sum) /
        ((["a", "b"] : List String).length : ℚ) :=
  evaluate_baseline_mean id (fun _ _ => (1 : ℚ)/2) ["a", "b"]
    (List.cons_ne_nil _ _)

/-- `load_datasets(split)` (redteam.py lines 82-96): build one example per
goal, shuffle in place (`random.shuffle`, abstracted as a permutation-
producing function), then either split at index `int(0.8 * len)` — which for
a non-negative length equals `⌊4n/5⌋`, the fractional-part of `4n/5` being far
larger than the float error of `0.8 * n` — or alias the validation set to the
train set. -/
def load_datasets (shuffle : List String → List String) (goals : List String)
    (split : Bool) : List String × List String :=
  let trainset := shuffle goals
  if split then
    (trainset.take ((4 * trainset.length) / 5),
      trainset.drop ((4 * trainset.length) / 5))
  else
    (trainset, trainset)

/-- C6: `load_datasets` shuffles the examples; with the split flag the train
set is the first `⌊0.8 n⌋` shuffled examples and the validation set the rest —
a partition covering all examples — and without the flag the validation set
equals the train set. -/
theorem load_datasets_split_spec (shuffle : List String → List String)
    (goals : List String) (h : (shuffle goals).Perm goals) :
    (load_datasets shuffle goals true).1 =
      (shuffle goals).take ((4 * goals.length) / 5) ∧
    (load_datasets shuffle goals true).2 =
      (shuffle goals).drop ((4 * goals.length) / 5) ∧
    (load_datasets shuffle goals true).1 ++ (load_datasets shuffle goals true).2 =
      shuffle goals ∧
    ((load_datasets shuffle goals true).1 ++
        (load_datasets shuffle goals true).2).Perm goals ∧
    (load_datasets shuffle goals true).1.length = (4 * goals.length) / 5 ∧
    (load_datasets shuffle goals false).2 = (load_datasets shuffle goals false).1 := by
  have hlen : (shuffle goals).length = goals.length := h.length_eq
  refine ⟨?_, ?_, ?_, ?_, ?_, rfl⟩
  · simp [load_datasets, hlen]
  · simp [load_datasets, hlen]
  · simp [load_datasets, List.take_append_drop]
  · rw [show (load_datasets shuffle goals true).1 ++
        (load_datasets shuffle goals true).2 =
        ((shuffle goals).take ((4 * (shuffle goals).length) / 5)) ++
          ((shuffle goals).drop ((4 * (shuffle goals).length) / 5)) from rfl,
      List.take_append_drop]
    exact h
  · show ((shuffle goals).take ((4 * (shuffle goals).length) / 5)).length = _
    rw [List.length_take, hlen]
    omega

/-- Witness for C6 with `List.reverse` as the shuffle on a three-goal dataset. -/
theorem load_datasets_split_check :
    (load_datasets List.reverse ["a", "b", "c"] true).1 =
      (List.reverse ["a", "b", "c"]).take
        ((4 * (["a", "b", "c"] : List String).length) / 5) ∧
    (load_datasets List.reverse ["a", "b", "c"] true).2 =
      (List.reverse ["a", "b", "c"]).drop
        ((4 * (["a", "b", "c"] : List String).length) / 5) ∧
    (load_datasets List.reverse ["a", "b", "c"] true).1 ++
        (load_datasets List.reverse ["a", "b", "c"] true).2 =
      List.reverse ["a", "b", "c"] ∧
    ((load_datasets List.reverse ["a", "b", "c"] true).1 ++
        (load_datasets List.reverse ["a", "b", "c"] true).2).Perm
      ["a", "b", "c"] ∧
    (load_datasets List.reverse ["a", "b", "c"] true).1.length =
      (4 * (["a", "b", "c"] : List String).length) / 5 ∧
    (load_datasets List.reverse ["a", "b", "c"] false).2 =
      (load_datasets List.reverse ["a", "b", "c"] false).1 :=
  load_datasets_split_spec List.reverse ["a", "b", "c"] (List.reverse_perm _)

/-- Evaluation of one example inside the `eval_program_manual` loop
(redteam.py lines 63-67): run the attack program on the harmful intent, then
score its attack prompt.  Either call may raise (an invocation or validation
failure), modelled as `Except.error ()`. -/
def eval_one (prog : String → Except Unit String)
    (metricE : String → String → Except Unit ℚ) (ex : String) :
    Except Unit ℚ := do
  let result ← prog ex
  metricE ex result

/-- `eval_program_manual(prog, eval_set)` (redteam.py lines 61-68): a plain
sequential accumulation with no exception handling, so a failure in `prog` or
`metric` propagates out of the loop. -/
def eval_program_manual (prog : String → Except Unit String)
    (metricE : String → String → Except Unit ℚ) (eval_set : List String) :
    Except Unit ℚ :=
  eval_set.foldlM
    (fun score ex => do
      let result ← prog ex
      let s ← metricE ex result
      pure (score + s))
    0

/-- `evaluate_baseline` (redteam.py lines 99-110) under fallible metric calls:
the sequential loop has no exception handling either. -/
def evaluate_baselineE (metricE : String → String → Except Unit ℚ)
    (valset : List String) : Except Unit ℚ := do
  let base_score ← valset.foldlM
    (fun base_score ex => do
      let s ← metricE ex ex
      pure (base_score + s))
    (0 : ℚ)
  pure (base_score / (valset.length : ℚ))

lemma foldlM_add_error_iff {α : Type} (h : α → Except Unit ℚ) :
    ∀ (l : List α) (a : ℚ),
      (List.foldlM (fun acc ex => do let s ← h ex; pure (acc + s)) a l =
        Except.error ()) ↔ ∃ x ∈ l, h x = Except.error () := by
  intro l
  induction l with
  | nil =>
    intro a
    constructor
    · intro hcon
      have hcon' : (Except.ok a : Except Unit ℚ) = Except.error () := hcon
      cases hcon'
    · rintro ⟨y, hy, _⟩
      exact absurd hy (List.not_mem_nil y)
  | cons x xs ih =>
    intro a
    rw [List.foldlM_cons]
    cases hx : h x with
    | error e =>
      cases e
      constructor
      · intro _
        exact ⟨x, List.mem_cons_self x xs, hx⟩
      · intro _
        rfl
    | ok s =>
      show (List.foldlM _ (a + s) xs = Except.error ()) ↔ _
      rw [ih (a + s)]
      constructor
      · rintro ⟨y, hy, hyer⟩
        exact ⟨y, List.mem_cons_of_mem x hy, hyer⟩
      · rintro ⟨y, hy, hyer⟩
        rcases List.mem_cons.mp hy with rfl | hy
        · rw [hx] at hyer
          cases hyer
        · exact ⟨y, hy, hyer⟩

lemma eval_program_manual_eq_foldlM (prog : String → Except Unit String)
    (metricE : String → String → Except Unit ℚ) (eval_set : List String) :
    eval_program_manual prog metricE eval_set =
      eval_set.foldlM
        (fun acc ex => do let s ← eval_one prog metricE ex; pure (acc + s)) 0 := by
  unfold eval_program_manual
  congr 1
  funext acc ex
  unfold eval_one
  cases prog ex <;> rfl

/-- Counterexample for C2: with an attack program that succeeds, a metric that
fails on the first example and returns 1 on the second, the whole evaluation
returns an error — the failing example is not excluded, no failure count is
surfaced, and the second example's score 1 is not aggregated. -/
theorem eval_program_manual_aborts_on_failure :
    eval_program_manual (fun ex => Except.ok ex)
      (fun intent _ => if intent = "bad" then Except.error () else Except.ok 1)
      ["bad", "good"] = Except.error () := by
  rfl

/-- C2 (amended): the sequential harness loops (`eval_program_manual` and the
baseline pass) have no per-example failure isolation — the evaluation of the
whole set fails exactly when some example's evaluation fails, and no partial
aggregate or failure count is produced. -/
theorem eval_failure_propagates (prog : String → Except Unit String)
    (metricE : String → String → Except Unit ℚ) (eval_set : List String)
    (metricB : String → String → Except Unit ℚ) (valset : List String) :
    (eval_program_manual prog metricE eval_set = Except.error () ↔
      ∃ ex ∈ eval_set, eval_one prog metricE ex = Except.error ()) ∧
    (evaluate_baselineE metricB valset = Except.error () ↔
      ∃ ex ∈ valset, metricB ex ex = Except.error ()) := by
  constructor
  · rw [eval_program_manual_eq_foldlM]
    exact foldlM_add_error_iff (eval_one prog metricE) eval_set 0
  · unfold evaluate_baselineE
    have hiff := foldlM_add_error_iff (fun ex => metricB ex ex) valset 0
    cases hfold : valset.foldlM
        (fun base_score ex => do let s ← metricB ex ex; pure (base_score + s))
        (0 : ℚ) with
    | error e =>
      cases e
      exact iff_of_true rfl (hiff.mp hfold)
    | ok s =>
      refine iff_of_false ?_ ?_
      · intro hcon
        have hcon' :
            (Except.ok (s / (valset.length : ℚ)) : Except Unit ℚ) =
              Except.error () := hcon
        cases hcon'
      · intro hex
        have hfe := hiff.mpr hex
        rw [hfold] at hfe
        cases hfe

/-- Observable external calls of the per-setting experiment body of `main`
(redteam.py lines 208-213), in the order they are issued: the sequential
baseline pass, an evaluation of a program by the dspy harness, or one
optimizer invocation together with the `num_trials` argument it receives. -/
inductive DriverEvent (P : Type) where
  | evalBaseline
  | evalProgram (prog : P)
  | compileProg (prog : P) (num_trials : ℕ)
deriving DecidableEq

/-- The program produced from `prog0` by `k` successive calls of
`compile_program(prog, trainset, num_trials=2, num_threads=num_threads)`
(redteam.py line 212); `compile` abstracts the MIPRO optimizer behind
`compile_program` (lines 124-142). -/
def prog_chain {P : Type} (compile : P → List String → ℕ → ℕ → P)
    (trainset : List String) (num_threads : ℕ) (prog0 : P) : ℕ → P
  | 0 => prog0
  | k + 1 =>
    compile (prog_chain compile trainset num_threads prog0 k) trainset 2
      num_threads

/-- The `for i in range(15)` optimize-evaluate loop of `main` (redteam.py
lines 210-213), generalized over the round count: each round feeds the program
returned by the previous round into the optimizer with `num_trials=2`, then
records exactly one evaluation score.  Returns the final program, the recorded
scores and the emitted events. -/
def optimize_loop {P : Type} (compile : P → List String → ℕ → ℕ → P)
    (evalp : P → ℚ) (trainset : List String) (num_threads : ℕ) :
    ℕ → P → P × List ℚ × List (DriverEvent P)
  | 0, prog => (prog, [], [])
  | n + 1, prog =>
    let prog1 := compile prog trainset 2 num_threads
    let s := evalp prog1
    let r := optimize_loop compile evalp trainset num_threads n prog1
    (r.1, s :: r.2.1,
      DriverEvent.compileProg prog 2 :: DriverEvent.evalProgram prog1 :: r.2.2)

/-- Scores, final program and event trace of one experiment setting. -/
structure RunResult (P : Type) where
  base_score : ℚ
  initial_score : ℚ
  optimized_scores : List ℚ
  final_prog : P
  events : List (DriverEvent P)

/-- The per-setting body of `main` (redteam.py lines 208-213): first the
baseline pass over the validation set, then an evaluation of the freshly built
program, then 15 optimize rounds. -/
def run_setting {P : Type} (compile : P → List String → ℕ → ℕ → P)
    (evalp : P → ℚ) (base_eval : ℚ) (trainset : List String)
    (num_threads : ℕ) (prog0 : P) : RunResult P :=
  let base_score := base_eval
  let initial_score := evalp prog0
  let r := optimize_loop compile evalp trainset num_threads 15 prog0
  { base_score := base_score
    initial_score := initial_score
    optimized_scores := r.2.1
    final_prog := r.1
    events :=
      DriverEvent.evalBaseline :: DriverEvent.evalProgram prog0 :: r.2.2 }

lemma prog_chain_shift {P : Type} (compile : P → List String → ℕ → ℕ → P)
    (trainset : List String) (num_threads : ℕ) :
    ∀ (k : ℕ) (p : P),
      prog_chain compile trainset num_threads p (k + 1) =
        prog_chain compile trainset num_threads
          (compile p trainset 2 num_threads) k := by
  intro k
  induction k with
  | zero => intro p; rfl
  | succ k ih =>
    intro p
    show compile (prog_chain compile trainset num_threads p (k + 1)) trainset 2
        num_threads = _
    rw [ih p]
    rfl

lemma optimize_loop_eq {P : Type} (compile : P → List String → ℕ → ℕ → P)
    (evalp : P → ℚ) (trainset : List String) (num_threads : ℕ) :
    ∀ (n : ℕ) (p : P),
      optimize_loop compile evalp trainset num_threads n p =
        (prog_chain compile trainset num_threads p n,
          (List.range n).map
            (fun k => evalp (prog_chain compile trainset num_threads p (k + 1))),
          (List.range n).flatMap
            (fun k =>
              [DriverEvent.compileProg
                  (prog_chain compile trainset num_threads p k) 2,
                DriverEvent.evalProgram
                  (prog_chain compile trainset num_threads p (k + 1))])) := by
  intro n
  induction n with
  | zero => intro p; rfl
  | succ n ih =>
    intro p
    show (let prog1 := compile p trainset 2 num_threads
      let s := evalp prog1
      let r := optimize_loop compile evalp trainset num_threads n prog1
      (r.1, s :: r.2.1,
        DriverEvent.compileProg p 2 ::
          DriverEvent.evalProgram prog1 :: r.2.2)) = _
    simp only [ih (compile p trainset 2 num_threads)]
    rw [List.range_succ_eq_map, List.map_cons, List.flatMap_cons,
      List.flatMap_map, List.map_map]
    refine congrArg₂ Prod.mk ?_ (congrArg₂ Prod.mk ?_ ?_)
    · rw [prog_chain_shift]
    · have hfun : (fun k => evalp (prog_chain compile trainset num_threads
            (compile p trainset 2 num_threads) (k + 1))) =
          ((fun k => evalp (prog_chain compile trainset num_threads p (k + 1)))
            ∘ Nat.succ) := by
        funext k
        show evalp (prog_chain compile trainset num_threads
            (compile p trainset 2 num_threads) (k + 1)) =
          evalp (prog_chain compile trainset num_threads p (k + 1 + 1))
        rw [prog_chain_shift compile trainset num_threads (k + 1) p]
      rw [hfun]
      rfl
    · have hfun : (fun k =>
            [DriverEvent.compileProg (prog_chain compile trainset num_threads
                (compile p trainset 2 num_threads) k) 2,
              DriverEvent.evalProgram (prog_chain compile trainset num_threads
                (compile p trainset 2 num_threads) (k + 1))]) =
          (fun a =>
            [DriverEvent.compileProg
                (prog_chain compile trainset num_threads p a.succ) 2,
              DriverEvent.evalProgram
                (prog_chain compile trainset num_threads p (a.succ + 1))]) := by
        funext k
        show ([DriverEvent.compileProg (prog_chain compile trainset num_threads
              (compile p trainset 2 num_threads) k) 2,
            DriverEvent.evalProgram (prog_chain compile trainset num_threads
              (compile p trainset 2 num_threads) (k + 1))] :
            List (DriverEvent P)) =
          [DriverEvent.compileProg
              (prog_chain compile trainset num_threads p (k + 1)) 2,
            DriverEvent.evalProgram
              (prog_chain compile trainset num_threads p (k + 1 + 1))]
        rw [prog_chain_shift compile trainset num_threads (k + 1) p,
          prog_chain_shift compile trainset num_threads k p]
      rw [hfun]
      rfl

/-- C4: for every experiment setting the driver records the baseline score,
the initial score of the fresh program, and then runs exactly 15 optimize
rounds with `num_trials=2`, each seeded with the program returned by the
previous round, recording exactly one evaluation score per round: the
trajectory has length 15 and the event trace is exactly the baseline pass,
the initial evaluation, and 15 alternating compile/evaluate pairs along the
compile chain. -/
theorem run_setting_trajectory {P : Type}
    (compile : P → List String → ℕ → ℕ → P) (evalp : P → ℚ) (base_eval : ℚ)
    (trainset : List String) (num_threads : ℕ) (prog0 : P) :
    (run_setting compile evalp base_eval trainset num_threads
        prog0).base_score = base_eval ∧
    (run_setting compile evalp base_eval trainset num_threads
        prog0).initial_score = evalp prog0 ∧
    (run_setting compile evalp base_eval trainset num_threads
        prog0).optimized_scores =
      (List.range 15).map (fun k =>
        evalp (prog_chain compile trainset num_threads prog0 (k + 1))) ∧
    (run_setting compile evalp base_eval trainset num_threads
        prog0).optimized_scores.length = 15 ∧
    (run_setting compile evalp base_eval trainset num_threads
        prog0).final_prog = prog_chain compile trainset num_threads prog0 15 ∧
    (run_setting compile evalp base_eval trainset num_threads prog0).events =
      DriverEvent.evalBaseline :: DriverEvent.evalProgram prog0 ::
        (List.range 15).flatMap (fun k =>
          [DriverEvent.compileProg
              (prog_chain compile trainset num_threads prog0 k) 2,
            DriverEvent.evalProgram
              (prog_chain compile trainset num_threads prog0 (k + 1))]) := by
  have h := optimize_loop_eq compile evalp trainset num_threads 15 prog0
  refine ⟨rfl, rfl, ?_, ?_, ?_, ?_⟩
  · show (optimize_loop compile evalp trainset num_threads 15 prog0).2.1 = _
    rw [h]
  · show (optimize_loop compile evalp trainset num_threads 15
        prog0).2.1.length = _
    rw [h]
    simp
  · show (optimize_loop compile evalp trainset num_threads 15 prog0).1 = _
    rw [h]
  · show DriverEvent.evalBaseline :: DriverEvent.evalProgram prog0 ::
        (optimize_loop compile evalp trainset num_threads 15 prog0).2.2 = _
    rw [h]

/-- `main()` (redteam.py lines 191-213) up to result persistence: the setting
matrix is expanded, the datasets are loaded — `load_datasets` can raise on a
missing file, malformed JSON or an absent `goals` field, modelled as
`Except.error ()` — and only then is each setting run, building its attack
program with `choose_attack_program` and running the per-setting body. -/
def main_model (attack_programs : List String)
    (num_layers_list buf_sizes : List Int) (critique_models : List String)
    (load : Except Unit (List String × List String))
    (compile : Option AttackProgramV → List String → ℕ → ℕ →
      Option AttackProgramV)
    (evalp : Option AttackProgramV → List String → ℚ)
    (base_eval : List String → ℚ) (num_threads : ℕ) :
    Except Unit (List (RunResult (Option AttackProgramV))) := do
  let settings := get_setting_combinations attack_programs num_layers_list
    buf_sizes critique_models
  let (trainset, valset) ← load
  return settings.map fun setting =>
    run_setting compile (fun prog => evalp prog valset) (base_eval valset)
      trainset num_threads
      (choose_attack_program setting.attack_program setting.num_layers
        setting.buf_size setting.critique_model)

/-- C7: when the dataset load fails, the run aborts before any experiment
setting is processed: whatever the configuration axes and the evaluation and
optimization functions, the result is only the dataset error — no attack
program is constructed and no evaluation or optimization is performed for any
setting. -/
theorem main_aborts_on_dataset_error (attack_programs : List String)
    (num_layers_list buf_sizes : List Int) (critique_models : List String)
    (compile : Option AttackProgramV → List String → ℕ → ℕ →
      Option AttackProgramV)
    (evalp : Option AttackProgramV → List String → ℚ)
    (base_eval : List String → ℚ) (num_threads : ℕ) :
    main_model attack_programs num_layers_list buf_sizes critique_models
      (Except.error ()) compile evalp base_eval num_threads =
      Except.error () := rfl

/-- One row of the results table assembled by `main` (redteam.py lines
215-224).  The CSV writer stringifies the `optimized` score list
(`str(optimized_scores)`); the model keeps the list itself. -/
structure ResultRow where
  baseline : ℚ
  initial : ℚ
  optimized : List ℚ
  attack_program : String
  num_layers : Int
  buf_size : Int
  critique_model : String
  split_trainset : Bool
deriving DecidableEq

/-- The `results` record `main` builds for one completed experiment. -/
def make_result_row (base_score initial_score : ℚ)
    (optimized_scores : List ℚ) (setting : Setting)
    (split_trainset : Bool) : ResultRow :=
  { baseline := base_score
    initial := initial_score
    optimized := optimized_scores
    attack_program := setting.attack_program
    num_layers := setting.num_layers
    buf_size := setting.buf_size
    critique_model := setting.critique_model
    split_trainset := split_trainset }

/-- The results file: `none` when `savefile` does not exist yet, otherwise a
header flag plus the rows written so far. -/
structure CsvFile where
  header : Bool
  rows : List ResultRow
deriving DecidableEq

/-- The save step of `main` (redteam.py lines 226-232): when the file does not
exist, `df.write_csv(savefile)` creates it with a header and the single row;
otherwise the row is appended in binary append mode with
`include_header=False`. -/
def save_results (file : Option CsvFile) (row : ResultRow) : CsvFile :=
  match file with
  | none => { header := true, rows := [row] }
  | some c => { header := c.header, rows := c.rows ++ [row] }

/-- C8: with the save flag set, each completed experiment appends exactly one
row — carrying the baseline score, the initial score, the per-round optimized
scores and the setting's configuration — to the results file; previously
written rows and the header are left unchanged, and a header is written only
when the file does not yet exist. -/
theorem save_results_append_only (c : CsvFile) (base_score initial_score : ℚ)
    (optimized_scores : List ℚ) (setting : Setting) (split_trainset : Bool) :
    (save_results (some c) (make_result_row base_score initial_score
        optimized_scores setting split_trainset)).rows =
      c.rows ++ [make_result_row base_score initial_score optimized_scores
        setting split_trainset] ∧
    (save_results (some c) (make_result_row base_score initial_score
        optimized_scores setting split_trainset)).header = c.header ∧
    (save_results (some c) (make_result_row base_score initial_score
        optimized_scores setting split_trainset)).rows.take c.rows.length =
      c.rows ∧
    (save_results (some c) (make_result_row base_score initial_score
        optimized_scores setting split_trainset)).rows.length =
      c.rows.length + 1 ∧
    save_results none (make_result_row base_score initial_score
        optimized_scores setting split_trainset) =
      { header := true,
        rows := [make_result_row base_score initial_score optimized_scores
          setting split_trainset] } ∧
    (make_result_row base_score initial_score optimized_scores setting
        split_trainset).baseline = base_score ∧
    (make_result_row base_score initial_score optimized_scores setting
        split_trainset).initial = initial_score ∧
    (make_result_row base_score initial_score optimized_scores setting
        split_trainset).optimized = optimized_scores ∧
    (make_result_row base_score initial_score optimized_scores setting
        split_trainset).attack_program = setting.attack_program := by
  refine ⟨rfl, rfl, ?_, ?_, rfl, rfl, rfl, rfl, rfl⟩
  · show (c.rows ++ [make_result_row base_score initial_score
        optimized_scores setting split_trainset]).take c.rows.length = c.rows
    simp
  · show (c.rows ++ [make_result_row base_score initial_score
        optimized_scores setting split_trainset]).length = c.rows.length + 1
    simp
